import Mathlib

/-!
Verification of the embedding-service provider/validation core.

The definitions below are a shallow embedding of the repository's Python
sources: `embedding_service/api.py` (validation gate and /embed route),
`embedding_service/core/model_factory.py` (model loader with
architecture-detection fallback), `embedding_service/providers/hf_provider.py`
and `app/providers/granite_provider.py` (provider variants),
`embedding_service/providers/registry.py` (singleton registry), and the two
`routes_embed.py` request handlers.  External collaborators (the neural model
library and the remote embedding runtime) are opaque capabilities; where a
definition models one of them from the specification rather than from code in
the repository, its doc comment says so explicitly.
-/

/-- Validation limits drawn from `Settings` (core/config.py): the three
input-size limits applied by the validation gate. -/
structure Limits where
  max_texts_per_request : Nat
  max_chars_per_text : Nat
  max_total_chars : Nat
deriving DecidableEq, Repr

/-- Structured rejection reasons of the validation gate, one per
`HTTPException` raised by `validate_inputs` in api.py. -/
inductive Rejection where
  | emptyBatch
  | batchTooLarge (n : Nat)
  | nullElement (i : Nat)
  | elementTooLong (i : Nat) (len : Nat)
  | payloadTooLarge (total : Nat)
deriving DecidableEq, Repr

/-- The element loop of `validate_inputs` (api.py lines 62-75): walks the
texts in order with the running index `i` and running character total,
failing at the first null element or first over-long element.  Elements are
`Option String` because the Python code explicitly tests `t is None`. -/
def scanTexts (lim : Limits) : List (Option String) → Nat → Nat → Except Rejection Nat
  | [], _, total => .ok total
  | none :: _, i, _ => .error (.nullElement i)
  | some t :: rest, i, total =>
    if t.length > lim.max_chars_per_text then .error (.elementTooLong i t.length)
    else scanTexts lim rest (i + 1) (total + t.length)

/-- Shallow embedding of `validate_inputs` (api.py:46-86): empty-batch check,
batch-count check, per-element scan, then the aggregate total-size check;
on success it returns the total character count. -/
def validate_inputs (texts : List (Option String)) (lim : Limits) : Except Rejection Nat :=
  if texts.isEmpty then .error .emptyBatch
  else if texts.length > lim.max_texts_per_request then .error (.batchTooLarge texts.length)
  else
    match scanTexts lim texts 0 0 with
    | .error e => .error e
    | .ok total =>
      if total > lim.max_total_chars then .error (.payloadTooLarge total)
      else .ok total

/-- Spec-side description for the per-element phase, written from the claim's
words: scanning in index order, `nullElement` at the first null element,
`elementTooLong` (with that element's index and length) at the first element
whose length exceeds `max_chars_per_text`. -/
def firstElemViolation (lim : Limits) : List (Option String) → Nat → Option Rejection
  | [], _ => none
  | none :: _, i => some (.nullElement i)
  | some t :: rest, i =>
    if t.length > lim.max_chars_per_text then some (.elementTooLong i t.length)
    else firstElemViolation lim rest (i + 1)

/-- Sum of the lengths of all elements (a null element contributes nothing;
a null element never coexists with a successful scan). -/
def totalChars (texts : List (Option String)) : Nat :=
  (texts.map (fun t => (t.getD "").length)).sum

theorem scanTexts_eq_spec (lim : Limits) (texts : List (Option String)) (i acc : Nat) :
    scanTexts lim texts i acc =
      match firstElemViolation lim texts i with
      | some v => .error v
      | none => .ok (acc + totalChars texts) := by
  induction texts generalizing i acc with
  | nil => simp [scanTexts, firstElemViolation, totalChars]
  | cons hd tl ih =>
    cases hd with
    | none => simp [scanTexts, firstElemViolation]
    | some t =>
      by_cases h : t.length > lim.max_chars_per_text
      · simp [scanTexts, firstElemViolation, h]
      · simp only [scanTexts, firstElemViolation, h, if_neg, ite_false]
        rw [ih]
        cases hfv : firstElemViolation lim tl (i + 1) with
        | some v => simp [hfv]
        | none =>
          simp only [hfv, totalChars, List.map_cons, List.sum_cons, Option.getD_some]
          congr 1
          omega

/-- C1: the validation gate settles in the exact order the claim states and
reports only the first violation: `emptyBatch` for a zero-element batch,
else `batchTooLarge` when the count exceeds `max_texts_per_request`, else the
first per-element violation in index order (`nullElement` at the first null,
`elementTooLong` with the offending index and length), else `payloadTooLarge`
when the sum of lengths exceeds `max_total_chars`, else success with exactly
the sum of the lengths of all elements. -/
theorem validate_inputs_first_violation (texts : List (Option String)) (lim : Limits) :
    validate_inputs texts lim =
      if texts.length = 0 then .error .emptyBatch
      else if texts.length > lim.max_texts_per_request then .error (.batchTooLarge texts.length)
      else
        match firstElemViolation lim texts 0 with
        | some v => .error v
        | none =>
          if totalChars texts > lim.max_total_chars then
            .error (.payloadTooLarge (totalChars texts))
          else .ok (totalChars texts) := by
  unfold validate_inputs
  rw [scanTexts_eq_spec]
  rcases texts with _ | ⟨hd, tl⟩
  · simp
  · have h0 : ((hd :: tl) : List (Option String)).isEmpty = false := rfl
    simp only [h0, Bool.false_eq_true, if_false, List.length_cons]
    rw [if_neg (by omega : ¬(tl.length + 1 = 0))]
    cases hfv : firstElemViolation lim (hd :: tl) 0 <;> simp [hfv, Nat.zero_add]

/-- Observable state of the two Prometheus histograms that `validate_inputs`
touches (`REQUEST_TEXT_LENGTH` and `REQUEST_PAYLOAD_CHARS`, api.py lines
32-39): the lists of recorded observations, in order. -/
structure MetricsState where
  text_length_obs : List Nat
  payload_chars_obs : List Nat
deriving DecidableEq, Repr

/-- State outside the call that `validate_inputs` can reach: the (mutable in
Python) input batch and the process-wide metrics registry. -/
structure GateState where
  batch : List (Option String)
  metrics : MetricsState
deriving DecidableEq, Repr

/-- The element loop of `validate_inputs` with its state effects made
explicit: each element that passes its length check records a
`REQUEST_TEXT_LENGTH` observation when metrics are enabled (api.py 74-75). -/
def scanTextsSt (lim : Limits) (metricsEnabled : Bool) :
    List (Option String) → Nat → Nat → MetricsState → Except Rejection Nat × MetricsState
  | [], _, total, ms => (.ok total, ms)
  | none :: _, i, _, ms => (.error (.nullElement i), ms)
  | some t :: rest, i, total, ms =>
    if t.length > lim.max_chars_per_text then (.error (.elementTooLong i t.length), ms)
    else
      let ms' := if metricsEnabled then
          { ms with text_length_obs := ms.text_length_obs ++ [t.length] } else ms
      scanTextsSt lim metricsEnabled rest (i + 1) (total + t.length) ms'

/-- `validate_inputs` with its reads and writes of outside state made
explicit: it reads the batch, never writes it, and writes only the two
metric histograms (the per-element one inside the loop, the payload one on
the success path, api.py 83-84). -/
def validate_inputs_st (lim : Limits) (metricsEnabled : Bool) (st : GateState) :
    Except Rejection Nat × GateState :=
  if st.batch.isEmpty then (.error .emptyBatch, st)
  else if st.batch.length > lim.max_texts_per_request then
    (.error (.batchTooLarge st.batch.length), st)
  else
    match scanTextsSt lim metricsEnabled st.batch 0 0 st.metrics with
    | (.error e, ms) => (.error e, { st with metrics := ms })
    | (.ok total, ms) =>
      if total > lim.max_total_chars then
        (.error (.payloadTooLarge total), { st with metrics := ms })
      else
        let ms' := if metricsEnabled then
            { ms with payload_chars_obs := ms.payload_chars_obs ++ [total] } else ms
        (.ok total, { st with metrics := ms' })

theorem scanTextsSt_fst (lim : Limits) (en : Bool) (texts : List (Option String))
    (i acc : Nat) (ms : MetricsState) :
    (scanTextsSt lim en texts i acc ms).1 = scanTexts lim texts i acc := by
  induction texts generalizing i acc ms with
  | nil => rfl
  | cons hd tl ih =>
    cases hd with
    | none => rfl
    | some t =>
      by_cases h : t.length > lim.max_chars_per_text
      · simp [scanTextsSt, scanTexts, h]
      · simp [scanTextsSt, scanTexts, h, ih]

theorem scanTextsSt_metrics (lim : Limits) (en : Bool) (texts : List (Option String))
    (i acc : Nat) (ms : MetricsState) :
    ∃ l1, (scanTextsSt lim en texts i acc ms).2 =
      ⟨ms.text_length_obs ++ l1, ms.payload_chars_obs⟩ := by
  induction texts generalizing i acc ms with
  | nil => exact ⟨[], by simp [scanTextsSt]⟩
  | cons hd tl ih =>
    cases hd with
    | none => exact ⟨[], by simp [scanTextsSt]⟩
    | some t =>
      by_cases h : t.length > lim.max_chars_per_text
      · exact ⟨[], by simp [scanTextsSt, h]⟩
      · cases en with
        | false =>
          obtain ⟨l1, hl1⟩ := ih (i + 1) (acc + t.length) ms
          exact ⟨l1, by simpa [scanTextsSt, h] using hl1⟩
        | true =>
          obtain ⟨l1, hl1⟩ := ih (i + 1) (acc + t.length)
            { ms with text_length_obs := ms.text_length_obs ++ [t.length] }
          refine ⟨[t.length] ++ l1, ?_⟩
          simpa [scanTextsSt, h, List.append_assoc] using hl1

theorem scanTextsSt_disabled (lim : Limits) (texts : List (Option String))
    (i acc : Nat) (ms : MetricsState) :
    (scanTextsSt lim false texts i acc ms).2 = ms := by
  induction texts generalizing i acc ms with
  | nil => rfl
  | cons hd tl ih =>
    cases hd with
    | none => rfl
    | some t =>
      by_cases h : t.length > lim.max_chars_per_text
      · simp [scanTextsSt, h]
      · simp [scanTextsSt, h, ih]

/-- C7 counterexample: with metrics enabled (the default configuration),
running the validation gate on the one-element batch `["a"]` changes state
outside the call — both histograms gain an observation — so the gate as
implemented is not free of shared-state effects. -/
theorem validate_inputs_st_mutates_state :
    (validate_inputs_st ⟨10, 10, 10⟩ true ⟨[some "a"], ⟨[], []⟩⟩).2 ≠
      ⟨[some "a"], ⟨[], []⟩⟩ := by decide

/-- C7 amended: the validation gate never mutates the batch; with metrics
disabled it mutates no outside state at all; with metrics enabled the only
outside-state change is appending observations to the two metric histograms;
and its returned result is exactly that of the pure gate. -/
theorem validate_inputs_st_frame (lim : Limits) (metricsEnabled : Bool) (st : GateState) :
    (validate_inputs_st lim metricsEnabled st).2.batch = st.batch ∧
    (metricsEnabled = false → (validate_inputs_st lim metricsEnabled st).2 = st) ∧
    (∃ l1 l2, (validate_inputs_st lim metricsEnabled st).2.metrics =
      ⟨st.metrics.text_length_obs ++ l1, st.metrics.payload_chars_obs ++ l2⟩) ∧
    (validate_inputs_st lim metricsEnabled st).1 = validate_inputs st.batch lim := by
  unfold validate_inputs_st validate_inputs
  by_cases h0 : st.batch.isEmpty
  · refine ⟨by simp [h0], fun _ => by simp [h0], ⟨[], [], by simp [h0]⟩, by simp [h0]⟩
  · by_cases h1 : st.batch.length > lim.max_texts_per_request
    · refine ⟨by simp [h0, h1], fun _ => by simp [h0, h1], ⟨[], [], by simp [h0, h1]⟩,
        by simp [h0, h1]⟩
    · have hfst := scanTextsSt_fst lim metricsEnabled st.batch 0 0 st.metrics
      obtain ⟨l1, hl1⟩ := scanTextsSt_metrics lim metricsEnabled st.batch 0 0 st.metrics
      rcases hsc : scanTextsSt lim metricsEnabled st.batch 0 0 st.metrics with ⟨r, ms⟩
      rw [hsc] at hfst hl1
      simp only at hfst hl1
      cases r with
      | error e =>
        refine ⟨by simp [h0, h1, hsc], ?_, ⟨l1, [], by simp [h0, h1, hsc, hl1]⟩,
          by simp [h0, h1, hsc, ← hfst]⟩
        intro hen
        subst hen
        have := scanTextsSt_disabled lim st.batch 0 0 st.metrics
        rw [hsc] at this
        simp only at this
        simp [h0, h1, hsc, this]
      | ok total =>
        by_cases h2 : total > lim.max_total_chars
        · refine ⟨by simp [h0, h1, hsc, h2], ?_, ⟨l1, [], by simp [h0, h1, hsc, h2, hl1]⟩,
            by simp [h0, h1, hsc, h2, ← hfst]⟩
          intro hen
          subst hen
          have := scanTextsSt_disabled lim st.batch 0 0 st.metrics
          rw [hsc] at this
          simp only at this
          simp [h0, h1, hsc, h2, this]
        · cases metricsEnabled with
          | false =>
            have hms := scanTextsSt_disabled lim st.batch 0 0 st.metrics
            rw [hsc] at hms
            simp only at hms
            refine ⟨by simp [h0, h1, hsc, h2, hms], fun _ => by simp [h0, h1, hsc, h2, hms],
              ⟨[], [], by simp [h0, h1, hsc, h2, hms]⟩, by simp [h0, h1, hsc, h2, ← hfst]⟩
          | true =>
            refine ⟨by simp [h0, h1, hsc, h2], by simp, ?_,
              by simp [h0, h1, hsc, h2, ← hfst]⟩
            exact ⟨l1, [total], by simp [h0, h1, hsc, h2, hl1]⟩

/-- C7 witness instance: with metrics disabled the gate leaves the state of
the example batch untouched. -/
theorem validate_inputs_st_frame_witness :
    (validate_inputs_st ⟨10, 10, 10⟩ false ⟨[some "a"], ⟨[], []⟩⟩).2 =
      ⟨[some "a"], ⟨[], []⟩⟩ :=
  (validate_inputs_st_frame ⟨10, 10, 10⟩ false ⟨[some "a"], ⟨[], []⟩⟩).2.1 rfl

/-- Modelled from the spec: the loaded neural model, an external collaborator
("the numerical implementation of the embedding model itself (treated as an
opaque capability)", spec §1).  Its single observable capability is a fixed
deterministic per-text encoding. -/
structure ModelHandle where
  encodeOne : String → List Float

/-- Modelled from the spec: the model library's batch `encode` applies the
per-text encoding to each element — "encode(texts) -> vectors" with output
aligned to input (spec §1 and §4.2). -/
def ModelHandle.encode (m : ModelHandle) (texts : List String) : List (List Float) :=
  texts.map m.encodeOne

/-- The character set Python's `str.strip()` removes (CPython's `str.isspace`
set): ASCII whitespace `\t \n \x0b \x0c \r`, the separators `\x1c`-`\x1f`,
space, `\x85`, and the Unicode space characters (category Zs). -/
def pyIsSpace (c : Char) : Bool :=
  [0x09, 0x0A, 0x0B, 0x0C, 0x0D, 0x1C, 0x1D, 0x1E, 0x1F, 0x20, 0x85, 0xA0,
    0x1680, 0x2000, 0x2001, 0x2002, 0x2003, 0x2004, 0x2005, 0x2006, 0x2007,
    0x2008, 0x2009, 0x200A, 0x2028, 0x2029, 0x202F, 0x205F, 0x3000].contains c.toNat

/-- The guard `not text.strip()` of the Python provider: true exactly when
every character of the text is one `str.strip()` removes, so `strip()`
yields the empty, falsy, string. -/
def isBlank (s : String) : Bool :=
  s.data.all pyIsSpace

/-- Shallow embedding of `HFProvider.embed`
(embedding_service/providers/hf_provider.py:46-66), paired with the number of
model-encode invocations the call performs: whitespace-only text returns `[]`
without touching the model; otherwise the model encodes the singleton batch
and the first row is returned. -/
def HFProvider.embedTr (m : ModelHandle) (text : String) : List Float × Nat :=
  if isBlank text then ([], 0)
  else ((m.encode [text]).headD [], 1)

/-- Result component of `HFProvider.embed`. -/
def HFProvider.embed (m : ModelHandle) (text : String) : List Float :=
  (HFProvider.embedTr m text).1

/-- Shallow embedding of `HFProvider.embed_batch`
(embedding_service/providers/hf_provider.py:68-88), paired with the number of
model-encode invocations: an empty list returns `[]` without touching the
model; otherwise the model encodes the whole batch in one call. -/
def HFProvider.embed_batchTr (m : ModelHandle) (texts : List String) :
    List (List Float) × Nat :=
  if texts.isEmpty then ([], 0)
  else (m.encode texts, 1)

/-- Result component of `HFProvider.embed_batch`. -/
def HFProvider.embed_batch (m : ModelHandle) (texts : List String) : List (List Float) :=
  (HFProvider.embed_batchTr m texts).1

/-- One datum of the remote runtime's embeddings response
(`data[i].embedding` in granite_provider.py). -/
structure RemoteDatum where
  embedding : List Float

/-- The remote runtime's successful response body: the `data` array. -/
structure RemoteResponse where
  data : List RemoteDatum

/-- Modelled from the spec: the remote Granite runtime, an external
collaborator reached by REST.  Per spec §4.2 the batch call "sends all texts
in one request body" and output must align with input, so a successful
response carries one embedding per input, in input order. -/
structure RemoteRuntime where
  embedOf : String → List Float

/-- Modelled from the spec: a successful POST of `inputs` to the remote
runtime's embeddings endpoint. -/
def RemoteRuntime.post (rt : RemoteRuntime) (inputs : List String) : RemoteResponse :=
  ⟨inputs.map (fun t => ⟨rt.embedOf t⟩)⟩

/-- Shallow embedding of `GraniteProvider.embed_batch`
(app/providers/granite_provider.py:27-32): posts all texts in one request and
extracts `d["embedding"]` from each entry of `data`, in order. -/
def GraniteProvider.embed_batch (rt : RemoteRuntime) (texts : List String) :
    List (List Float) :=
  ((rt.post texts).data).map (fun d => d.embedding)

/-- Shallow embedding of `GraniteProvider.embed`
(app/providers/granite_provider.py:21-25): posts the singleton batch and
extracts `data[0].embedding`. -/
def GraniteProvider.embed (rt : RemoteRuntime) (text : String) : List Float :=
  (((rt.post [text]).data).headD ⟨[]⟩).embedding

/-- C4: for every batch that passes the validation gate, both provider
variants return one vector per input with the i-th output vector being the
backend's embedding of the i-th input text (positional alignment), hence
output length equals input length. -/
theorem embed_batch_aligned (m : ModelHandle) (rt : RemoteRuntime)
    (texts : List String) (lim : Limits) (n : Nat)
    (hv : validate_inputs (texts.map some) lim = .ok n) :
    HFProvider.embed_batch m texts = texts.map m.encodeOne ∧
    (HFProvider.embed_batch m texts).length = texts.length ∧
    GraniteProvider.embed_batch rt texts = texts.map rt.embedOf ∧
    (GraniteProvider.embed_batch rt texts).length = texts.length := by
  have hne : texts ≠ [] := by
    rintro rfl
    simp [validate_inputs] at hv
  have hE : texts.isEmpty = false := by
    cases texts with
    | nil => exact absurd rfl hne
    | cons a l => rfl
  refine ⟨?_, ?_, ?_, ?_⟩
  · simp [HFProvider.embed_batch, HFProvider.embed_batchTr, hE, ModelHandle.encode]
  · simp [HFProvider.embed_batch, HFProvider.embed_batchTr, hE, ModelHandle.encode]
  · simp [GraniteProvider.embed_batch, RemoteRuntime.post, List.map_map, Function.comp]
  · simp [GraniteProvider.embed_batch, RemoteRuntime.post]

/-- C4 witness instance: the accepted batch `["a"]` under limits 10/10/10,
with concrete one-component backends. -/
theorem embed_batch_aligned_witness :
    validate_inputs (["a"].map some) ⟨10, 10, 10⟩ = .ok 1 ∧
    (HFProvider.embed_batch ⟨fun _ => [1.0]⟩ ["a"] =
        ["a"].map (fun _ => [1.0]) ∧
      (HFProvider.embed_batch ⟨fun _ => [1.0]⟩ ["a"]).length = (["a"] : List String).length ∧
      GraniteProvider.embed_batch ⟨fun _ => [2.0]⟩ ["a"] =
        ["a"].map (fun _ => [2.0]) ∧
      (GraniteProvider.embed_batch ⟨fun _ => [2.0]⟩ ["a"]).length =
        (["a"] : List String).length) :=
  ⟨rfl,
    embed_batch_aligned ⟨fun _ => [1.0]⟩ ⟨fun _ => [2.0]⟩ ["a"] ⟨10, 10, 10⟩ 1 rfl⟩

/-- C5 counterexample: the text `" "` passes validation (it is non-null and
within every limit), yet on the local provider `embed " "` short-circuits to
`[]` while `embed_batch [" "]` encodes it through the model — for a model
whose vectors are `[1.0]`, the two paths disagree. -/
theorem embed_single_vs_batch_diverges :
    validate_inputs [some " "] ⟨10, 10, 10⟩ = .ok 1 ∧
    HFProvider.embed ⟨fun _ => [1.0]⟩ " " = [] ∧
    HFProvider.embed_batch ⟨fun _ => [1.0]⟩ [" "] = [[1.0]] ∧
    HFProvider.embed ⟨fun _ => [1.0]⟩ " " ≠
      (HFProvider.embed_batch ⟨fun _ => [1.0]⟩ [" "]).headD [] := by
  refine ⟨rfl, rfl, rfl, fun h => ?_⟩
  have h' : ([] : List Float) = [1.0] := h
  exact List.noConfusion h'

/-- C5 amended: for every accepted single text that is not whitespace-only,
the single-text path and the batch path agree: `embed t` equals the first
element of `embed_batch [t]`.  (For whitespace-only accepted texts the two
paths diverge, as the counterexample shows.) -/
theorem embed_single_batch_consistent (m : ModelHandle) (t : String) (lim : Limits)
    (n : Nat) (_hv : validate_inputs [some t] lim = .ok n) (hw : isBlank t = false) :
    HFProvider.embed m t = (HFProvider.embed_batch m [t]).headD [] := by
  simp [HFProvider.embed, HFProvider.embedTr, HFProvider.embed_batch,
    HFProvider.embed_batchTr, ModelHandle.encode, hw]

/-- C5 witness instance: the accepted text `"hi"` under limits 10/10/10. -/
theorem embed_single_batch_consistent_witness :
    validate_inputs [some "hi"] ⟨10, 10, 10⟩ = .ok 2 ∧
    HFProvider.embed ⟨fun _ => [1.0]⟩ "hi" =
      (HFProvider.embed_batch ⟨fun _ => [1.0]⟩ ["hi"]).headD [] :=
  ⟨rfl, embed_single_batch_consistent ⟨fun _ => [1.0]⟩ "hi" ⟨10, 10, 10⟩ 2 rfl (by decide)⟩

/-- C9: on the local provider, a whitespace-only (in particular empty) text
makes `embed` return the empty list with zero model invocations, and the
empty batch makes `embed_batch` return the empty list with zero model
invocations — empty input short-circuits instead of raising. -/
theorem empty_input_short_circuits (m : ModelHandle) (t : String) (h : isBlank t = true) :
    HFProvider.embedTr m t = ([], 0) ∧ HFProvider.embed_batchTr m [] = ([], 0) := by
  exact ⟨by simp [HFProvider.embedTr, h], rfl⟩

/-- C9 witness instance: the empty string short-circuits on a concrete model. -/
theorem empty_input_short_circuits_witness :
    HFProvider.embedTr ⟨fun _ => [1.0]⟩ "" = ([], 0) ∧
    HFProvider.embed_batchTr ⟨fun _ => [1.0]⟩ [] = ([], 0) :=
  empty_input_short_circuits ⟨fun _ => [1.0]⟩ "" rfl

/-- The unrecognized-architecture failure signature (model_factory.py:11-15). -/
def MODERNBERT_HINTS : List String :=
  ["modernbert", "does not recognize this architecture", "model type"]

/-- Substring occurrence on character lists, Python's `needle in hay`. -/
def containsSub (needle : List Char) : List Char → Bool
  | [] => needle.isEmpty
  | c :: t => needle.isPrefixOf (c :: t) || containsSub needle t

/-- Python's `hint in message` on strings. -/
def strContains (hay needle : String) : Bool :=
  containsSub needle.data hay.data

/-- Python's `str.lower`, applied characterwise. -/
def lowerStr (s : String) : String :=
  ⟨s.data.map Char.toLower⟩

/-- The signature test of `_load_with_fallback` (model_factory.py:78-79):
`any(hint in message for hint in MODERNBERT_HINTS)` over the lowercased
exception message. -/
def matchesHint (msg : String) : Bool :=
  MODERNBERT_HINTS.any (fun h => strContains (lowerStr msg) h)

/-- A loaded SentenceTransformer model, identified opaquely. -/
structure STModel where
  id : Nat
deriving DecidableEq, Repr

/-- A raised load exception, observed through its message `str(exc)`. -/
structure LoadErr where
  msg : String
deriving DecidableEq, Repr

/-- The loader's collaborators, as `ModelFactory` observes them: the
filesystem's directory test (`os.path.isdir`) and the outcome of each of the
two loading strategies at any given path — the plain
`SentenceTransformer(path, device)` construction, and the
`trust_remote_code` construction from lower-level components with an
explicit mean-pooling layer (`_load_modernbert_with_remote_code`). -/
structure LoadEnv where
  isDir : String → Bool
  plainLoad : String → Except LoadErr STModel
  remoteCodeLoad : String → Except LoadErr STModel

/-- Shallow embedding of `ModelFactory._load_with_fallback`
(model_factory.py:70-86), paired with whether the alternate
remote-code strategy was attempted: try the plain load; on an exception
whose lowered message matches the signature, switch to the alternate
strategy; re-raise any other exception untouched. -/
def ModelFactory.load_with_fallback (env : LoadEnv) (path : String) :
    Except LoadErr STModel × Bool :=
  match env.plainLoad path with
  | .ok m => (.ok m, false)
  | .error exc =>
    if matchesHint exc.msg then (env.remoteCodeLoad path, true)
    else (.error exc, false)

/-- Shallow embedding of `ModelFactory._load_path` (model_factory.py:116-118):
a plain explicit-path load, used only for the fallback path. -/
def ModelFactory.load_path (env : LoadEnv) (path : String) : Except LoadErr STModel :=
  env.plainLoad path

/-- Shallow embedding of `ModelFactory.load` (model_factory.py:36-67):
invalid primary directory is terminal; otherwise the primary attempt runs
`_load_with_fallback`; if that fails and the fallback path is truthy and a
directory, the loader runs `_load_path` on the fallback path (whose outcome,
success or exception, is the loader's outcome); otherwise the primary
failure is re-raised. -/
def ModelFactory.load (env : LoadEnv) (path : String) (fallback_path : Option String) :
    Except LoadErr STModel :=
  if env.isDir path = false then .error ⟨s!"Model path invalid: {path}"⟩
  else
    match (ModelFactory.load_with_fallback env path).1 with
    | .ok m => .ok m
    | .error exc =>
      match fallback_path with
      | some fp =>
        if fp = "" then .error exc
        else if env.isDir fp then ModelFactory.load_path env fp
        else .error exc
      | none => .error exc

theorem lwf_ok (env : LoadEnv) (path : String) (m : STModel)
    (h : env.plainLoad path = .ok m) :
    ModelFactory.load_with_fallback env path = (.ok m, false) := by
  simp [ModelFactory.load_with_fallback, h]

theorem lwf_error (env : LoadEnv) (path : String) (exc : LoadErr)
    (h : env.plainLoad path = .error exc) :
    ModelFactory.load_with_fallback env path =
      if matchesHint exc.msg then (env.remoteCodeLoad path, true)
      else (.error exc, false) := by
  simp [ModelFactory.load_with_fallback, h]

/-- C3: the alternate remote-code strategy is attempted if and only if the
plain primary load fails with a message matching the
unrecognized-architecture signature; a matching failure hands the outcome to
the alternate strategy, and a non-matching failure propagates unchanged with
the alternate never attempted. -/
theorem alternate_strategy_iff (env : LoadEnv) (path : String) :
    ((ModelFactory.load_with_fallback env path).2 = true ↔
      ∃ exc, env.plainLoad path = .error exc ∧ matchesHint exc.msg = true) ∧
    (∀ exc, env.plainLoad path = .error exc → matchesHint exc.msg = true →
      ModelFactory.load_with_fallback env path = (env.remoteCodeLoad path, true)) ∧
    (∀ exc, env.plainLoad path = .error exc → matchesHint exc.msg = false →
      ModelFactory.load_with_fallback env path = (.error exc, false)) := by
  refine ⟨⟨?_, ?_⟩, ?_, ?_⟩
  · intro hat
    cases h : env.plainLoad path with
    | ok m =>
      rw [lwf_ok env path m h] at hat
      simp at hat
    | error exc =>
      rw [lwf_error env path exc h] at hat
      by_cases hm : matchesHint exc.msg = true
      · exact ⟨exc, rfl, hm⟩
      · rw [if_neg hm] at hat
        simp at hat
  · rintro ⟨exc, hexc, hm⟩
    rw [lwf_error env path exc hexc, if_pos hm]
  · intro exc hexc hm
    rw [lwf_error env path exc hexc, if_pos hm]
  · intro exc hexc hm
    rw [lwf_error env path exc hexc, hm]
    simp

/-- C3 witness instance: a primary failure mentioning "model type" routes the
load to the alternate strategy, which here succeeds with model 7. -/
theorem alternate_strategy_iff_witness :
    ModelFactory.load_with_fallback
      ⟨fun _ => true, fun _ => .error ⟨"Unrecognized model type foo"⟩, fun _ => .ok ⟨7⟩⟩
      "p" = (.ok ⟨7⟩, true) :=
  (alternate_strategy_iff
      ⟨fun _ => true, fun _ => .error ⟨"Unrecognized model type foo"⟩, fun _ => .ok ⟨7⟩⟩
      "p").2.1 ⟨"Unrecognized model type foo"⟩ rfl rfl

/-- C2 counterexample: an environment in which the primary attempt fails
(plain load hits the unrecognized-architecture signature and the alternate
strategy also fails), the fallback path `"fb"` is configured and is a valid
directory, and the *entire* load procedure run at the fallback path would
succeed with model 5 via the alternate strategy — yet `load` fails, because
the fallback retry runs only the plain single-strategy `_load_path`, never
the alternate strategy. -/
theorem load_fallback_skips_alternate :
    (ModelFactory.load_with_fallback
        ⟨fun _ => true,
         fun _ => .error ⟨"does not recognize this architecture"⟩,
         fun p => if p = "fb" then .ok ⟨5⟩ else .error ⟨"boom"⟩⟩ "p").1 =
      .error ⟨"boom"⟩ ∧
    (ModelFactory.load_with_fallback
        ⟨fun _ => true,
         fun _ => .error ⟨"does not recognize this architecture"⟩,
         fun p => if p = "fb" then .ok ⟨5⟩ else .error ⟨"boom"⟩⟩ "fb").1 =
      .ok ⟨5⟩ ∧
    ModelFactory.load
        ⟨fun _ => true,
         fun _ => .error ⟨"does not recognize this architecture"⟩,
         fun p => if p = "fb" then .ok ⟨5⟩ else .error ⟨"boom"⟩⟩ "p" (some "fb") =
      .error ⟨"does not recognize this architecture"⟩ ∧
    ModelFactory.load
        ⟨fun _ => true,
         fun _ => .error ⟨"does not recognize this architecture"⟩,
         fun p => if p = "fb" then .ok ⟨5⟩ else .error ⟨"boom"⟩⟩ "p" (some "fb") ≠
      .ok ⟨5⟩ := by
  refine ⟨rfl, rfl, rfl, fun h => ?_⟩
  have h' : (Except.error ⟨"does not recognize this architecture"⟩ :
      Except LoadErr STModel) = .ok ⟨5⟩ := h
  exact Except.noConfusion h'

/-- C2 amended: whenever the primary attempt (plain load plus its
alternate-strategy retry) fails and the fallback path is configured
(non-empty) and resolves to a directory, the loader makes exactly one
further attempt — a plain single-strategy load of the fallback path, without
the architecture-detection alternate strategy — and its outcome is the
loader's outcome, so a successful fallback plain load is returned. -/
theorem load_fallback_plain_once (env : LoadEnv) (path fp : String) (exc : LoadErr)
    (hdir : env.isDir path = true)
    (hfail : (ModelFactory.load_with_fallback env path).1 = .error exc)
    (hfp : fp ≠ "") (hfd : env.isDir fp = true) :
    ModelFactory.load env path (some fp) = env.plainLoad fp := by
  unfold ModelFactory.load
  rw [hdir]
  simp only [Bool.true_eq_false, if_false]
  rw [hfail]
  simp [hfp, hfd, ModelFactory.load_path]

/-- C2 witness instance: a non-matching primary failure with a healthy
fallback directory loads model 3 through the single plain fallback load. -/
theorem load_fallback_plain_once_witness :
    ModelFactory.load
      ⟨fun _ => true,
       fun s => if s = "fb" then .ok ⟨3⟩ else .error ⟨"weird"⟩,
       fun _ => .error ⟨"x"⟩⟩ "p" (some "fb") = .ok ⟨3⟩ := by
  rw [load_fallback_plain_once
    ⟨fun _ => true,
     fun s => if s = "fb" then .ok ⟨3⟩ else .error ⟨"weird"⟩,
     fun _ => .error ⟨"x"⟩⟩ "p" "fb" ⟨"weird"⟩ rfl rfl (by decide) rfl]
  rfl

/-- Request payload of the /embed route handlers: the pydantic `EmbedRequest`
with its two optional fields. -/
structure Payload where
  text : Option String
  texts : Option (List String)

/-- Python truthiness of `payload.text`: present and non-empty. -/
def truthyText (p : Payload) : Bool :=
  match p.text with
  | some s => !s.isEmpty
  | none => false

/-- Python truthiness of `payload.texts`: present and non-empty. -/
def truthyTexts (p : Payload) : Bool :=
  match p.texts with
  | some l => !l.isEmpty
  | none => false

/-- Client-visible outcome of a handler: one of its success bodies, or an
HTTP error with status code and detail string. -/
inductive Resp where
  | okSingle (provider model : String) (embedding : List Float) (dim : Nat)
  | okBatch (provider model : String) (embeddings : List (List Float)) (count : Nat) (dim : Nat)
  | err (status : Nat) (detail : String)

/-- Kind of exception escaping a provider call, as the handlers discriminate
them: `ValueError` versus anything else, each with its `str(e)`. -/
inductive PyErr where
  | valueError (msg : String)
  | other (msg : String)

/-- Input limit MAX_TEXT_LEN of embedding_service/api/routes_embed.py. -/
def MAX_TEXT_LEN : Nat := 4096

/-- Input limit MAX_BATCH_SIZE of embedding_service/api/routes_embed.py. -/
def MAX_BATCH_SIZE : Nat := 128

/-- Shallow embedding of `EmbedRequest.validate_text`
(embedding_service/api/routes_embed.py:24-28): only a truthy (non-None,
non-empty) value is length-checked; everything else passes through. -/
def validate_text (v : Option String) : Except String (Option String) :=
  match v with
  | none => .ok none
  | some s =>
    if !s.isEmpty && s.length > MAX_TEXT_LEN then
      .error s!"Single text input exceeds {MAX_TEXT_LEN} characters"
    else .ok (some s)

/-- Shallow embedding of `EmbedRequest.validate_texts`
(embedding_service/api/routes_embed.py:30-38): only a truthy (non-None,
non-empty) list is checked for batch size and element lengths. -/
def validate_texts (v : Option (List String)) : Except String (Option (List String)) :=
  match v with
  | none => .ok none
  | some l =>
    if l.isEmpty then .ok (some l)
    else if l.length > MAX_BATCH_SIZE then
      .error s!"Too many texts — maximum allowed is {MAX_BATCH_SIZE}"
    else if l.any (fun t => t.length > MAX_TEXT_LEN) then
      .error s!"One or more texts exceed {MAX_TEXT_LEN} characters"
    else .ok (some l)

/-- Shallow embedding of the app-variant /embed handler
(app/api/routes_embed.py:13-36), paired with the number of provider
invocations.  The whole body sits in one `try` whose `except Exception`
catch-all re-raises anything — including the handler's own 400
`HTTPException` from the missing-fields branch — as a 500 whose detail is
`str(e)` (for a Starlette `HTTPException`, `str(e)` is "status: detail"),
and which therefore also exposes the text of any provider failure. -/
def app_embed_text (p : Payload) (embedF : String → Except String (List Float))
    (batchF : List String → Except String (List (List Float))) : Resp × Nat :=
  if truthyText p then
    match embedF (p.text.getD "") with
    | .ok v => (.okSingle "hf-local" "intfloat/e5-large-v2" v v.length, 1)
    | .error m => (.err 500 m, 1)
  else if truthyTexts p then
    match batchF (p.texts.getD []) with
    | .ok vs =>
      match vs with
      | [] => (.err 500 "list index out of range", 1)
      | v :: _ => (.okBatch "hf-local" "intfloat/e5-large-v2" vs vs.length v.length, 1)
    | .error m => (.err 500 m, 1)
  else (.err 500 "400: Missing 'text' or 'texts'", 0)

/-- Shallow embedding of the embedding_service-variant /embed handler
(embedding_service/api/routes_embed.py:41-103), paired with the number of
provider invocations.  Its `except HTTPException: raise` clause lets the
missing-fields 400 through unchanged; a `ValueError` becomes a 400 carrying
its message; any other provider failure becomes a 500 with the fixed detail
"Internal Server Error while generating embeddings". -/
def es_embed_text (p : Payload) (modelName : String)
    (embedF : String → Except PyErr (List Float))
    (batchF : List String → Except PyErr (List (List Float))) : Resp × Nat :=
  if truthyText p then
    match embedF (p.text.getD "") with
    | .ok v => (.okSingle "hf-local" modelName v v.length, 1)
    | .error (.valueError m) => (.err 400 m, 1)
    | .error (.other _) => (.err 500 "Internal Server Error while generating embeddings", 1)
  else if truthyTexts p then
    match batchF (p.texts.getD []) with
    | .ok vs => (.okBatch "hf-local" modelName vs vs.length (vs.headD []).length, 1)
    | .error (.valueError m) => (.err 400 m, 1)
    | .error (.other _) => (.err 500 "Internal Server Error while generating embeddings", 1)
  else (.err 400 "Either 'text' or 'texts' must be provided.", 0)

/-- Response of the api.py /embed route: the `EmbeddingResponse` fields our
claims observe, or an HTTP error. -/
inductive ApiResp where
  | ok (model : String) (model_version : String) (embedding_dim : Nat)
      (embeddings : List (List Float))
  | err (status : Nat) (detail : String)

/-- HTTP status of each validation rejection (api.py:46-86). -/
def rejStatus : Rejection → Nat
  | .emptyBatch => 400
  | .batchTooLarge _ => 413
  | .nullElement _ => 400
  | .elementTooLong _ _ => 413
  | .payloadTooLarge _ => 413

/-- Detail string of each validation rejection (api.py:46-86). -/
def rejDetail (lim : Limits) : Rejection → String
  | .emptyBatch => "inputs must not be empty"
  | .batchTooLarge n => s!"Too many inputs ({n}); max {lim.max_texts_per_request}"
  | .nullElement i => s!"Input at index {i} is null"
  | .elementTooLong i len =>
    s!"Input {i} too large ({len} chars; max {lim.max_chars_per_text})"
  | .payloadTooLarge total =>
    s!"Total payload too large ({total} chars; max {lim.max_total_chars})"

/-- Shallow embedding of the /embed route of api.py (lines 145-228), with the
embedding computation's outcome supplied as `svc` (the `service.embed` call
run in the threadpool): validation runs first; an exception from the
computation is surfaced as a 500 whose detail is the fixed string
"Embedding failed" (api.py:186), the exception's own text going only to the
log; on success the response carries the configured model name and version,
the recorded embedding dimension and the vectors. -/
def api_embed (lim : Limits) (modelName modelVersion : String) (dim : Nat)
    (inputs : List (Option String)) (svc : Except String (List (List Float))) : ApiResp :=
  match validate_inputs inputs lim with
  | .error r => .err (rejStatus r) (rejDetail lim r)
  | .ok _ =>
    match svc with
    | .error _ => .err 500 "Embedding failed"
    | .ok embs => .ok modelName modelVersion dim embs

/-- C8 counterexample: in the app-variant handler the raw exception text is
copied into the client-facing error detail, so two runs that differ only in
the internal exception's text produce different responses. -/
theorem backend_error_leaks_app_variant :
    app_embed_text ⟨some "x", none⟩
        (fun _ => .error "Torch error: /opt/models/secret not found")
        (fun _ => .error "b") =
      (.err 500 "Torch error: /opt/models/secret not found", 1) ∧
    app_embed_text ⟨some "x", none⟩ (fun _ => .error "other detail")
        (fun _ => .error "b") =
      (.err 500 "other detail", 1) ∧
    app_embed_text ⟨some "x", none⟩
        (fun _ => .error "Torch error: /opt/models/secret not found")
        (fun _ => .error "b") ≠
      app_embed_text ⟨some "x", none⟩ (fun _ => .error "other detail")
        (fun _ => .error "b") := by
  refine ⟨rfl, rfl, fun h => ?_⟩
  have h2 : ((Resp.err 500 "Torch error: /opt/models/secret not found", 1) : Resp × Nat) =
      (Resp.err 500 "other detail", 1) := h
  injection congrArg Prod.fst h2 with hs hd
  exact absurd hd (by decide)

/-- C8 amended: the embedding_service /embed handler reports a backend
failure with the fixed generic detail "Embedding failed": two runs that
differ only in the internal exception's text produce identical client-facing
responses, and whenever validation passes the error body is exactly that
constant, so the raw exception text never appears in it.  (The app-variant
handler instead copies the exception text into the response, as the
counterexample shows.) -/
theorem backend_error_generic_es (lim : Limits) (mn mv : String) (dim : Nat)
    (inputs : List (Option String)) (e1 e2 : String) :
    api_embed lim mn mv dim inputs (.error e1) =
      api_embed lim mn mv dim inputs (.error e2) ∧
    (∀ total, validate_inputs inputs lim = .ok total →
      api_embed lim mn mv dim inputs (.error e1) = .err 500 "Embedding failed") := by
  unfold api_embed
  cases h : validate_inputs inputs lim with
  | error r =>
    exact ⟨rfl, fun total ht => Except.noConfusion ht⟩
  | ok t => exact ⟨rfl, fun total ht => rfl⟩

/-- C8 witness instance: a concrete accepted request whose backend fails with
two different internal messages yields the one fixed error body. -/
theorem backend_error_generic_es_witness :
    api_embed ⟨10, 10, 10⟩ "m" "1.0.0" 4 [some "a"] (.error "boom1") =
      api_embed ⟨10, 10, 10⟩ "m" "1.0.0" 4 [some "a"] (.error "boom2") ∧
    api_embed ⟨10, 10, 10⟩ "m" "1.0.0" 4 [some "a"] (.error "boom1") =
      .err 500 "Embedding failed" :=
  ⟨(backend_error_generic_es ⟨10, 10, 10⟩ "m" "1.0.0" 4 [some "a"] "boom1" "boom2").1,
    (backend_error_generic_es ⟨10, 10, 10⟩ "m" "1.0.0" 4 [some "a"] "boom1" "boom2").2 1 rfl⟩

/-- C10 counterexample: in the app-variant handler an empty 'text' is treated
like an absent field and the provider is never invoked, but the request is
not rejected with a 400: the handler's own 400 `HTTPException` is swallowed
by its catch-all and re-raised as a 500. -/
theorem empty_fields_app_not_400 :
    app_embed_text ⟨some "", none⟩ (fun _ => .error "e") (fun _ => .error "e") =
      (.err 500 "400: Missing 'text' or 'texts'", 0) ∧
    ¬∃ d, app_embed_text ⟨some "", none⟩ (fun _ => .error "e") (fun _ => .error "e") =
      (.err 400 d, 0) := by
  refine ⟨rfl, ?_⟩
  rintro ⟨d, hd⟩
  have h2 : ((Resp.err 500 "400: Missing 'text' or 'texts'", 0) : Resp × Nat) =
      (Resp.err 400 d, 0) := hd
  injection congrArg Prod.fst h2 with hs hd2
  exact absurd hs (by decide)

/-- C10 amended: in both handlers a request whose 'text' is the empty string
or whose 'texts' is the empty list (or both) is treated exactly like a
request with both fields absent and the provider is never invoked, the
pydantic validators passing the empty values through; the embedding_service
handler rejects it with 400 "Either 'text' or 'texts' must be provided.",
while the app handler converts its own 400 into a 500 response. -/
theorem empty_fields_like_absent (modelName : String)
    (embedF : String → Except PyErr (List Float))
    (batchF : List String → Except PyErr (List (List Float)))
    (embedF2 : String → Except String (List Float))
    (batchF2 : List String → Except String (List (List Float))) :
    validate_text (some "") = .ok (some "") ∧
    validate_texts (some []) = .ok (some []) ∧
    ∀ p : Payload, (p.text = none ∨ p.text = some "") →
      (p.texts = none ∨ p.texts = some []) →
      es_embed_text p modelName embedF batchF =
        (.err 400 "Either 'text' or 'texts' must be provided.", 0) ∧
      app_embed_text p embedF2 batchF2 =
        (.err 500 "400: Missing 'text' or 'texts'", 0) := by
  refine ⟨rfl, rfl, ?_⟩
  rintro ⟨pt, pts⟩ h1 h2
  rcases h1 with rfl | rfl <;> rcases h2 with rfl | rfl <;> exact ⟨rfl, rfl⟩

/-- C10 witness instance: a request with empty 'text' and empty 'texts' is
rejected by both handlers without any provider call. -/
theorem empty_fields_like_absent_witness :
    es_embed_text ⟨some "", some []⟩ "m" (fun _ => .error (.other "e"))
        (fun _ => .error (.other "e")) =
      (.err 400 "Either 'text' or 'texts' must be provided.", 0) ∧
    app_embed_text ⟨some "", some []⟩ (fun _ => .error "e") (fun _ => .error "e") =
      (.err 500 "400: Missing 'text' or 'texts'", 0) :=
  (empty_fields_like_absent "m" (fun _ => .error (.other "e"))
      (fun _ => .error (.other "e")) (fun _ => .error "e") (fun _ => .error "e")).2.2
    ⟨some "", some []⟩ (Or.inr rfl) (Or.inr rfl)

/-- Program counter of one request task inside `get_provider`
(providers/registry.py:23-47): before the outer uninitialized check, waiting
on `_lock`, inside the locked double-checked section, or returned with an
instance. -/
inductive RegPC where
  | start
  | waitLock
  | crit
  | done (inst : Nat)
deriving DecidableEq, Repr

/-- Shared registry state plus every task's position: the module-level
`_provider_instance` (instances named by `Nat` identity), the holder of
`_lock` (`none` when free), the number of `HFProvider` constructions
performed so far, and each task's program counter. -/
structure RegState (n : Nat) where
  inst : Option Nat
  lockBy : Option (Fin n)
  ctorCount : Nat
  pc : Fin n → RegPC

/-- Initial state: uninitialized provider, free lock, no constructions, all
`n` tasks about to call `get_provider` for the first time. -/
def regInit (n : Nat) : RegState n :=
  ⟨none, none, 0, fun _ => .start⟩

/-- One atomic step of some task running `get_provider`: the outer
`_provider_instance is None` check (taking the fast path straight to the
return when the instance exists), acquisition of the free lock, and the
locked double-checked section that either constructs the provider — the new
instance's identity is the old construction count — or observes the existing
one, releasing the lock either way. -/
inductive regStep {n : Nat} : RegState n → RegState n → Prop
  | checkSet (s : RegState n) (i : Fin n) (v : Nat) :
      s.pc i = .start → s.inst = some v →
      regStep s { s with pc := Function.update s.pc i (.done v) }
  | checkUnset (s : RegState n) (i : Fin n) :
      s.pc i = .start → s.inst = none →
      regStep s { s with pc := Function.update s.pc i .waitLock }
  | acquire (s : RegState n) (i : Fin n) :
      s.pc i = .waitLock → s.lockBy = none →
      regStep s { s with lockBy := some i, pc := Function.update s.pc i .crit }
  | construct (s : RegState n) (i : Fin n) :
      s.pc i = .crit → s.lockBy = some i → s.inst = none →
      regStep s { inst := some s.ctorCount, lockBy := none,
                  ctorCount := s.ctorCount + 1,
                  pc := Function.update s.pc i (.done s.ctorCount) }
  | skipConstruct (s : RegState n) (i : Fin n) (v : Nat) :
      s.pc i = .crit → s.lockBy = some i → s.inst = some v →
      regStep s { s with lockBy := none, pc := Function.update s.pc i (.done v) }

/-- States reachable from the initial state by any interleaving of tasks. -/
def regReachable {n : Nat} (s : RegState n) : Prop :=
  Relation.ReflTransGen regStep (regInit n) s

/-- The registry invariant: at most one construction; the instance is absent
exactly while nothing was constructed; a task is in the locked section
exactly when it holds the lock (mutual exclusion); and a returned task holds
exactly the shared instance. -/
def RegInv {n : Nat} (s : RegState n) : Prop :=
  s.ctorCount ≤ 1 ∧
  (s.inst = none ↔ s.ctorCount = 0) ∧
  (∀ i : Fin n, s.pc i = .crit ↔ s.lockBy = some i) ∧
  (∀ (i : Fin n) (v : Nat), s.pc i = .done v → s.inst = some v)

theorem regInv_init (n : Nat) : RegInv (regInit n) := by
  refine ⟨Nat.zero_le 1, by simp [regInit], fun i => ?_, fun i v h => ?_⟩
  · constructor
    · intro h
      exact RegPC.noConfusion h
    · intro h
      exact Option.noConfusion h
  · exact RegPC.noConfusion h

theorem regInv_step {n : Nat} {s s' : RegState n} (hs : RegInv s)
    (hstep : regStep s s') : RegInv s' := by
  obtain ⟨h1, h2, h3, h4⟩ := hs
  cases hstep with
  | checkSet i v hpc hinst =>
    dsimp only [RegInv]
    refine ⟨h1, h2, fun j => ?_, fun j w hj => ?_⟩
    · by_cases hji : j = i
      · subst hji
        simp only [Function.update_same]
        constructor
        · intro h
          exact RegPC.noConfusion h
        · intro h
          have hx := (h3 j).mpr h
          rw [hpc] at hx
          exact RegPC.noConfusion hx
      · simp only [Function.update_noteq hji]
        exact h3 j
    · by_cases hji : j = i
      · subst hji
        simp only [Function.update_same] at hj
        cases hj
        exact hinst
      · simp only [Function.update_noteq hji] at hj
        exact h4 j w hj
  | checkUnset i hpc hinst =>
    dsimp only [RegInv]
    refine ⟨h1, h2, fun j => ?_, fun j w hj => ?_⟩
    · by_cases hji : j = i
      · subst hji
        simp only [Function.update_same]
        constructor
        · intro h
          exact RegPC.noConfusion h
        · intro h
          have hx := (h3 j).mpr h
          rw [hpc] at hx
          exact RegPC.noConfusion hx
      · simp only [Function.update_noteq hji]
        exact h3 j
    · by_cases hji : j = i
      · subst hji
        simp only [Function.update_same] at hj
        exact RegPC.noConfusion hj
      · simp only [Function.update_noteq hji] at hj
        exact h4 j w hj
  | acquire i hpc hlock =>
    dsimp only [RegInv]
    refine ⟨h1, h2, fun j => ?_, fun j w hj => ?_⟩
    · by_cases hji : j = i
      · subst hji
        simp [Function.update_same]
      · simp only [Function.update_noteq hji]
        constructor
        · intro h
          have hx := (h3 j).mp h
          rw [hlock] at hx
          exact Option.noConfusion hx
        · intro h
          injection h with hij
          exact absurd hij.symm hji
    · by_cases hji : j = i
      · subst hji
        simp only [Function.update_same] at hj
        exact RegPC.noConfusion hj
      · simp only [Function.update_noteq hji] at hj
        exact h4 j w hj
  | construct i hpc hlock hinst =>
    have hc0 : s.ctorCount = 0 := h2.mp hinst
    dsimp only [RegInv]
    refine ⟨by omega, ?_, fun j => ?_, fun j w hj => ?_⟩
    · constructor
      · intro h
        exact Option.noConfusion h
      · intro h
        omega
    · by_cases hji : j = i
      · subst hji
        simp only [Function.update_same]
        constructor
        · intro h
          exact RegPC.noConfusion h
        · intro h
          exact Option.noConfusion h
      · simp only [Function.update_noteq hji]
        constructor
        · intro h
          have hx := (h3 j).mp h
          rw [hlock] at hx
          injection hx with hij
          exact absurd hij.symm hji
        · intro h
          exact Option.noConfusion h
    · by_cases hji : j = i
      · subst hji
        simp only [Function.update_same] at hj
        cases hj
        rfl
      · simp only [Function.update_noteq hji] at hj
        have hx := h4 j w hj
        rw [hinst] at hx
        exact Option.noConfusion hx
  | skipConstruct i v hpc hlock hinst =>
    dsimp only [RegInv]
    refine ⟨h1, h2, fun j => ?_, fun j w hj => ?_⟩
    · by_cases hji : j = i
      · subst hji
        simp only [Function.update_same]
        constructor
        · intro h
          exact RegPC.noConfusion h
        · intro h
          exact Option.noConfusion h
      · simp only [Function.update_noteq hji]
        constructor
        · intro h
          have hx := (h3 j).mp h
          rw [hlock] at hx
          injection hx with hij
          exact absurd hij.symm hji
        · intro h
          exact Option.noConfusion h
    · by_cases hji : j = i
      · subst hji
        simp only [Function.update_same] at hj
        cases hj
        exact hinst
      · simp only [Function.update_noteq hji] at hj
        exact h4 j w hj

theorem regReachable_inv {n : Nat} {s : RegState n} (h : regReachable s) : RegInv s := by
  induction h with
  | refl => exact regInv_init n
  | tail _ hbc ih => exact regInv_step ih hbc

/-- C6: in every state reachable under any interleaving of concurrent
first-time callers, at most one provider construction has occurred; a task
that has returned holds exactly the shared instance and the construction
count is then exactly one; any two returned tasks hold the identical
instance; and a task that enters `get_provider` while the instance is
already cached moves in a single step straight to returning that instance,
never touching the lock or the construction count. -/
theorem registry_single_construction {n : Nat} (s : RegState n) (h : regReachable s) :
    s.ctorCount ≤ 1 ∧
    (∀ (i : Fin n) (v : Nat), s.pc i = .done v → s.inst = some v ∧ s.ctorCount = 1) ∧
    (∀ (i j : Fin n) (v w : Nat), s.pc i = .done v → s.pc j = .done w → v = w) ∧
    (∀ (i : Fin n) (v : Nat) (s' : RegState n), s.inst = some v → s.pc i = .start →
      regStep s s' → s'.pc i ≠ .start →
      s'.pc i = .done v ∧ s'.lockBy = s.lockBy ∧ s'.ctorCount = s.ctorCount) := by
  obtain ⟨h1, h2, h3, h4⟩ := regReachable_inv h
  refine ⟨h1, ?_, ?_, ?_⟩
  · intro i v hd
    have hi := h4 i v hd
    refine ⟨hi, ?_⟩
    have hnz : s.ctorCount ≠ 0 := by
      intro h0
      have hx := h2.mpr h0
      rw [hi] at hx
      exact Option.noConfusion hx
    omega
  · intro i j v w hi hj
    have hvi := h4 i v hi
    have hvj := h4 j w hj
    rw [hvi] at hvj
    injection hvj
  · intro i v s' hinst hstart hstep hmove
    cases hstep with
    | checkSet k v0 hk hv0 =>
      by_cases hki : k = i
      · subst hki
        rw [hinst] at hv0
        injection hv0 with hv0e
        subst hv0e
        exact ⟨Function.update_same k _ _, rfl, rfl⟩
      · exfalso
        apply hmove
        dsimp only
        rw [Function.update_noteq (fun hik => hki hik.symm)]
        exact hstart
    | checkUnset k hk hinstn =>
      rw [hinst] at hinstn
      exact Option.noConfusion hinstn
    | acquire k hk hlk =>
      by_cases hki : k = i
      · subst hki
        rw [hstart] at hk
        exact RegPC.noConfusion hk
      · exfalso
        apply hmove
        dsimp only
        rw [Function.update_noteq (fun hik => hki hik.symm)]
        exact hstart
    | construct k hk hlk hinstn =>
      rw [hinst] at hinstn
      exact Option.noConfusion hinstn
    | skipConstruct k v0 hk hlk hv0 =>
      by_cases hki : k = i
      · subst hki
        rw [hstart] at hk
        exact RegPC.noConfusion hk
      · exfalso
        apply hmove
        dsimp only
        rw [Function.update_noteq (fun hik => hki hik.symm)]
        exact hstart

/-- C6 witness instance: the initial state with two concurrent callers is
reachable and satisfies the at-most-one-construction bound. -/
theorem registry_single_construction_witness : (regInit 2).ctorCount ≤ 1 :=
  (registry_single_construction (regInit 2) Relation.ReflTransGen.refl).1
